import Mathlib

set_option autoImplicit false

/-!
Verification of the Route-Optimization routing kernel
(`server/src/algorithms/graph-engine.ts` and
`server/src/algorithms/optimization-engine.ts`).

The TypeScript classes `GraphEngine` and `OptimizationEngine` are embedded
shallowly:

* A JavaScript `Map` is modelled as an insertion-ordered association list
  `List (String × α)`.  `Map.set` replaces the value of an existing key in
  place and appends a fresh key at the end; `Map.delete` removes the entry;
  both exactly as in JavaScript.
* JavaScript numbers are modelled as `ℚ` where only finite values occur and
  as `WithTop ℚ` where the code manipulates `Infinity` (the distance and
  score maps of the solvers).  The idiom `m.get(k) || Infinity` is modelled
  by `jsGetOrInf`: it yields `⊤` for a missing key AND for a stored `0`,
  because `0` is falsy in JavaScript.  This faithfully reproduces the
  behaviour of the source, including its bugs.
* The mutable engine state (`this.nodes`, `this.edges`,
  `this.adjacencyList`) is a `Store` record threaded explicitly.
* `while` loops are step functions iterated on fuel; a loop of the source
  that provably terminates gets an internal fuel bound that is large enough
  (commented at the definition), a loop that can really diverge
  (`findPathAStar`) keeps the fuel in its interface, `none` meaning that the
  loop has not returned within the given number of iterations.
* Code that throws a `TypeError` (property access on `undefined`) is
  modelled by an `Option` result, `none` meaning the exception.
-/

/- The Batteries rational-number operations are `@[irreducible]`, which
blocks `decide` on closed rational computations; re-allow unfolding. -/
unseal Rat.add Rat.mul Rat.inv Rat.sub Rat.ofScientific

namespace RouteOpt

/-! ## JavaScript `Map` as an insertion-ordered association list -/

/-- `Map.get`: first binding of the key, if any. -/
def jsGet {α : Type} (m : List (String × α)) (k : String) : Option α :=
  match m with
  | [] => none
  | (k', v) :: rest => if k' = k then some v else jsGet rest k

/-- `Map.has`. -/
def jsHas {α : Type} (m : List (String × α)) (k : String) : Bool :=
  (jsGet m k).isSome

/-- `Map.set`: replace the first binding in place, or append a new one. -/
def jsSet {α : Type} (m : List (String × α)) (k : String) (v : α) :
    List (String × α) :=
  match m with
  | [] => [(k, v)]
  | (k', v') :: rest =>
    if k' = k then (k, v) :: rest else (k', v') :: jsSet rest k v

/-- `Map.delete`: remove the first binding of the key. -/
def jsDelete {α : Type} (m : List (String × α)) (k : String) :
    List (String × α) :=
  match m with
  | [] => []
  | (k', v') :: rest =>
    if k' = k then rest else (k', v') :: jsDelete rest k

/-! ## Data model (`server/src/types/index.ts`)

The type declarations themselves are not part of the sources supplied under
`src/`; the record shapes below are taken from the fields that
`graph-engine.ts` and `optimization-engine.ts` actually read and write,
cross-checked against §3 of the specification.  Numeric fields are `ℚ`
(exact arithmetic; the floating-point rounding of the source is not
modelled), optional fields are `Option`. -/

/-- `NetworkNode`.  `coordinates.lat`/`coordinates.lng` are inlined; the
remaining attributes (name, type, facilities, …) are never read by the
routing kernel and are omitted. -/
structure NetworkNode where
  id : String
  lat : ℚ
  lng : ℚ
  customsRequired : Bool
  deriving Repr, DecidableEq

/-- `NetworkEdge`.  `speedLimit`/`roadQuality` are never read and omitted. -/
structure NetworkEdge where
  id : String
  source : String
  target : String
  mode : String
  distance : ℚ
  baseTime : ℚ
  baseCost : ℚ
  capacity : ℚ
  reliability : ℚ
  carbonEmissions : ℚ
  fuelCost : ℚ
  tollCost : Option ℚ
  deriving Repr, DecidableEq

/-- `CostBreakdown`. -/
structure CostBreakdown where
  linehaul : ℚ
  fuelSurcharge : ℚ
  accessorials : ℚ
  detention : ℚ
  drayage : ℚ
  tolls : ℚ
  customs : ℚ
  insurance : ℚ
  total : ℚ
  currency : String
  deriving Repr, DecidableEq

/-- A time-window constraint.  The source parses the `start`/`end` ISO
strings with `new Date(·).getTime()`; the model carries the parsed epoch
milliseconds directly (`end` is a Lean keyword, hence `startMs`/`endMs`). -/
structure TimeWindow where
  startMs : ℚ
  endMs : ℚ
  hardConstraint : Bool
  deriving Repr, DecidableEq

structure CapacityConstraint where
  maxWeight : Option ℚ
  maxVolume : Option ℚ
  deriving Repr, DecidableEq

structure EmissionsConstraint where
  maxCO2 : ℚ
  preferLowEmission : Bool
  deriving Repr, DecidableEq

/-- `RouteConstraints`; `{}` in the source is `RouteConstraints.empty`. -/
structure RouteConstraints where
  timeWindows : Option (List TimeWindow)
  capacity : Option CapacityConstraint
  emissions : Option EmissionsConstraint
  avoidNodes : Option (List String)
  requiredNodes : Option (List String)
  deriving Repr, DecidableEq

def RouteConstraints.empty : RouteConstraints :=
  ⟨none, none, none, none, none⟩

/-- `RouteSegment` (`from`/`to` are Lean keywords, hence
`fromNode`/`toNode`, matching the local variable names of the source). -/
structure RouteSegment where
  id : String
  fromNode : NetworkNode
  toNode : NetworkNode
  edge : NetworkEdge
  mode : String
  distance : ℚ
  estimatedTime : ℚ
  cost : CostBreakdown
  carbonEmissions : ℚ
  deriving Repr, DecidableEq

/-- `Route`.  The `metadata` field (wall-clock compute time and algorithm
label) and the optional stochastic `confidence` band (whose computation
needs a floating square root and is never inspected by a claim; all
configurations in the claims have `stochastic = false`) are not modelled. -/
structure Route where
  id : String
  segments : List RouteSegment
  totalDistance : ℚ
  totalTime : ℚ
  totalCost : CostBreakdown
  totalCarbon : ℚ
  serviceLevel : ℚ
  reliability : ℚ
  riskScore : ℚ
  constraints : RouteConstraints
  deriving Repr, DecidableEq

/-- The weight vector of `OptimizationConfig.weights`. -/
structure Weights where
  cost : ℚ
  time : ℚ
  carbon : ℚ
  risk : ℚ
  serviceLevel : ℚ
  deriving Repr, DecidableEq

/-- `OptimizationConfig`.  `objectives` are informational string labels. -/
structure OptimizationConfig where
  objectives : List String
  weights : Weights
  algorithm : String
  considerTraffic : Bool
  considerWeather : Bool
  stochastic : Bool
  confidenceLevel : Option ℚ
  deriving Repr, DecidableEq

/-- The mutable state of `GraphEngine`: `this.nodes`, `this.edges`,
`this.adjacencyList`, each a JavaScript `Map`. -/
structure Store where
  nodes : List (String × NetworkNode)
  edges : List (String × NetworkEdge)
  adj : List (String × List String)
  deriving Repr, DecidableEq

/-! ## Network store operations (`GraphEngine`) -/

/-- `GraphEngine.addNode`. -/
def addNode (st : Store) (n : NetworkNode) : Store :=
  { st with
    nodes := jsSet st.nodes n.id n
    adj := if jsHas st.adj n.id then st.adj else jsSet st.adj n.id [] }

/-- `GraphEngine.addEdge`: register the edge and append its id to the
source's adjacency list (creating the slot when absent). -/
def addEdge (st : Store) (e : NetworkEdge) : Store :=
  { st with
    edges := jsSet st.edges e.id e
    adj := jsSet st.adj e.source ((jsGet st.adj e.source).getD [] ++ [e.id]) }

/-- `GraphEngine.getEdge`. -/
def getEdge (st : Store) (id : String) : Option NetworkEdge :=
  jsGet st.edges id

/-- `GraphEngine.getNode`. -/
def getNode (st : Store) (id : String) : Option NetworkNode :=
  jsGet st.nodes id

/-- `GraphEngine.removeEdge`: drop the edge from the index and splice the
first occurrence of its id out of its source's adjacency list. -/
def removeEdge (st : Store) (id : String) : Store :=
  match jsGet st.edges id with
  | none => st
  | some e =>
    { st with
      edges := jsDelete st.edges id
      adj :=
        match jsGet st.adj e.source with
        | none => st.adj
        | some edgeIds => jsSet st.adj e.source (edgeIds.erase id) }

/-- `GraphEngine.getNeighbors`: `(target node, edge)` pairs in adjacency
order, skipping ids whose edge or whose target node is absent. -/
def getNeighbors (st : Store) (nodeId : String) :
    List (NetworkNode × NetworkEdge) :=
  ((jsGet st.adj nodeId).getD []).filterMap fun edgeId =>
    match jsGet st.edges edgeId with
    | none => none
    | some e =>
      match jsGet st.nodes e.target with
      | none => none
      | some n => some (n, e)

/-! ## Cost kernel -/

/-- `GraphEngine.calculateEdgeCost`: scalarised edge cost under the
configuration's weights. -/
def calculateEdgeCost (e : NetworkEdge) (config : OptimizationConfig) : ℚ :=
  e.baseCost * config.weights.cost +
    e.baseTime * config.weights.time +
    e.carbonEmissions * e.distance * config.weights.carbon +
    (1 - e.reliability) * 100 * config.weights.risk

/-- `GraphEngine.heuristic`.  The source computes the haversine
great-circle distance with `sin`, `cos`, `atan2` and `sqrt`, which have no
exact rational embedding.  The model keeps every property of that function
the solvers' control flow can observe: the value is `⊤` (`Infinity`)
exactly when either node is absent, `0` exactly when both nodes are present
with identical coordinates (all the trigonometric terms vanish and the
source returns an exact `0`), and positive finite otherwise (the
coordinate ranges of §3 exclude antipodal wrap-around).  Theorems about
`findPathAStar` are stated for an arbitrary heuristic function and only
instantiated with this one in witnesses. -/
def heuristic (st : Store) (nodeId targetId : String) : WithTop ℚ :=
  match jsGet st.nodes nodeId, jsGet st.nodes targetId with
  | some n, some t => ((|t.lat - n.lat| + |t.lng - n.lng| : ℚ) : WithTop ℚ)
  | _, _ => ⊤

/-- `GraphEngine.calculateReliability`: product of the segment edges'
reliabilities, but `0` (not the empty product `1`) for an empty segment
list — the source starts with an explicit
`if (segments.length === 0) return 0`. -/
def calculateReliability (segments : List RouteSegment) : ℚ :=
  if segments.length = 0 then 0
  else segments.foldl (fun product seg => product * seg.edge.reliability) 1

/-- `GraphEngine.calculateServiceLevel`: mean segment reliability × 100,
`0` for an empty list. -/
def calculateServiceLevel (segments : List RouteSegment) : ℚ :=
  if segments.length = 0 then 0
  else
    (segments.foldl (fun sum seg => sum + seg.edge.reliability) 0 /
        segments.length) * 100

/-- `GraphEngine.calculateRiskScore`. -/
def calculateRiskScore (segments : List RouteSegment) : ℚ :=
  if segments.length = 0 then 0
  else min 100 ((1 - calculateReliability segments) * 100)

/-! ## Path solvers

Score maps hold JavaScript numbers that can be `Infinity`, modelled as
`WithTop ℚ`.  The source reads them with `map.get(k) || Infinity`; since
`0` is falsy in JavaScript, a stored `0` reads back as `Infinity` — the
model reproduces this with `jsGetOrInf`. -/

/-- `m.get(k) || Infinity`: a missing key *and* a stored `0` both give
`Infinity`. -/
def jsGetOrInf (m : List (String × WithTop ℚ)) (k : String) : WithTop ℚ :=
  match jsGet m k with
  | none => ⊤
  | some v => if v = 0 then ⊤ else v

/-- The minimum scans of `findPathAStar` and `findPathDijkstra`:
`let current = ''; let lowest = Infinity; for (x of xs) if (f(x) < lowest)
{ lowest = f(x); current = x }`. -/
def scanMin (f : String → WithTop ℚ) (xs : List String) :
    String × WithTop ℚ :=
  xs.foldl (fun acc x => if f x < acc.2 then (x, f x) else acc) ("", ⊤)

/-- `GraphEngine.reconstructPath`: walk the predecessor map from the
terminal node, prepending.  At every call site of the source the
predecessor chains are acyclic (each key is inserted pointing at an
already-finalised node), so `cameFrom.length` steps always suffice; the
internal bound makes the walk structurally recursive. -/
def reconstructPathGo (cameFrom : List (String × String)) :
    Nat → String → List String → List String
  | 0, _, path => path
  | steps + 1, current, path =>
    match jsGet cameFrom current with
    | none => path
    | some prev => reconstructPathGo cameFrom steps prev (prev :: path)

def reconstructPath (cameFrom : List (String × String)) (current : String) :
    List String :=
  reconstructPathGo cameFrom cameFrom.length current [current]

/-- The mutable state of the `findPathAStar` loop. -/
structure AStarState where
  openSet : List String
  cameFrom : List (String × String)
  gScore : List (String × WithTop ℚ)
  fScore : List (String × WithTop ℚ)
  deriving Repr, DecidableEq

/-- One relaxation of `findPathAStar`'s inner `for` loop over the
neighbors of `current`. -/
def astarRelax (hfun : String → String → WithTop ℚ) (goalId : String)
    (config : OptimizationConfig) (current : String) (acc : AStarState)
    (nb : NetworkNode × NetworkEdge) : AStarState :=
  let tentativeGScore :=
    jsGetOrInf acc.gScore current + (calculateEdgeCost nb.2 config : ℚ)
  if tentativeGScore < jsGetOrInf acc.gScore nb.1.id then
    { openSet :=
        if nb.1.id ∈ acc.openSet then acc.openSet
        else acc.openSet ++ [nb.1.id]
      cameFrom := jsSet acc.cameFrom nb.1.id current
      gScore := jsSet acc.gScore nb.1.id tentativeGScore
      fScore :=
        jsSet acc.fScore nb.1.id (tentativeGScore + hfun nb.1.id goalId) }
  else acc

/-- One iteration of `findPathAStar`'s `while` loop: either the loop
returns (`Sum.inl`: a path, or `none` for "no path found" when the open
set is empty) or it continues with a new state (`Sum.inr`). -/
def astarStep (hfun : String → String → WithTop ℚ) (st : Store)
    (goalId : String) (config : OptimizationConfig) (s : AStarState) :
    Sum (Option (List String)) AStarState :=
  if s.openSet = [] then Sum.inl none
  else
    let scanned := scanMin (fun nodeId => jsGetOrInf s.fScore nodeId) s.openSet
    let current := scanned.1
    if current = goalId then Sum.inl (some (reconstructPath s.cameFrom current))
    else
      Sum.inr
        ((getNeighbors st current).foldl
          (astarRelax hfun goalId config current)
          { s with openSet := s.openSet.erase current })

/-- The fuelled `while` loop of `findPathAStar`.  `none` means the loop has
not returned within `fuel` iterations (the source can genuinely loop
forever, see the C10 theorems). -/
def astarLoop (hfun : String → String → WithTop ℚ) (st : Store)
    (goalId : String) (config : OptimizationConfig) :
    Nat → AStarState → Option (Option (List String))
  | 0, _ => none
  | fuel + 1, s =>
    match astarStep hfun st goalId config s with
    | Sum.inl r => some r
    | Sum.inr s' => astarLoop hfun st goalId config fuel s'

/-- `GraphEngine.findPathAStar`, parameterised over the heuristic (see
`heuristic`) and over loop fuel. -/
def findPathAStar (hfun : String → String → WithTop ℚ) (st : Store)
    (startId goalId : String) (config : OptimizationConfig) (fuel : Nat) :
    Option (Option (List String)) :=
  astarLoop hfun st goalId config fuel
    { openSet := [startId]
      cameFrom := []
      gScore := [(startId, (0 : WithTop ℚ))]
      fScore := [(startId, hfun startId goalId)] }

/-- The mutable state of the `findPathDijkstra` loop. -/
structure DijkstraState where
  distances : List (String × WithTop ℚ)
  previous : List (String × String)
  unvisited : List String
  deriving Repr, DecidableEq

/-- One relaxation of `findPathDijkstra`'s inner `for` loop (only
unvisited neighbors are relaxed). -/
def dijkstraRelax (config : OptimizationConfig) (current : String)
    (acc : DijkstraState) (nb : NetworkNode × NetworkEdge) : DijkstraState :=
  if nb.1.id ∈ acc.unvisited then
    let alt :=
      jsGetOrInf acc.distances current + (calculateEdgeCost nb.2 config : ℚ)
    if alt < jsGetOrInf acc.distances nb.1.id then
      { acc with
        distances := jsSet acc.distances nb.1.id alt
        previous := jsSet acc.previous nb.1.id current }
    else acc
  else acc

/-- One iteration of `findPathDijkstra`'s `while` loop.  `Sum.inl` is a
return (`none` models `return null` / `break`), `Sum.inr` continues. -/
def dijkstraStep (st : Store) (goalId : String)
    (config : OptimizationConfig) (s : DijkstraState) :
    Sum (Option (List String)) DijkstraState :=
  if s.unvisited = [] then Sum.inl none
  else
    let scanned := scanMin (fun nodeId => jsGetOrInf s.distances nodeId)
      s.unvisited
    let current := scanned.1
    let minDist := scanned.2
    if current = goalId then
      Sum.inl (some (reconstructPath s.previous current))
    else if minDist = ⊤ then Sum.inl none
    else
      Sum.inr
        ((getNeighbors st current).foldl (dijkstraRelax config current)
          { s with unvisited := s.unvisited.erase current })

def dijkstraLoop (st : Store) (goalId : String)
    (config : OptimizationConfig) :
    Nat → DijkstraState → Option (Option (List String))
  | 0, _ => none
  | fuel + 1, s =>
    match dijkstraStep st goalId config s with
    | Sum.inl r => some r
    | Sum.inr s' => dijkstraLoop st goalId config fuel s'

/-- `GraphEngine.findPathDijkstra`.  Every iteration of the source's loop
either returns or removes the scanned node (an element of `unvisited`)
from `unvisited`, so `|nodes| + 1` iterations always suffice; the theorem
`dijkstraLoop_completes` discharges the internal fuel bound. -/
def findPathDijkstra (st : Store) (startId goalId : String)
    (config : OptimizationConfig) : Option (List String) :=
  let nodeIds := st.nodes.map Prod.fst
  let distances :=
    jsSet (nodeIds.foldl (fun m nodeId => jsSet m nodeId (⊤ : WithTop ℚ)) [])
      startId 0
  (dijkstraLoop st goalId config (nodeIds.length + 1)
      { distances := distances, previous := [], unvisited := nodeIds }).getD
    none

/-- The walk of `GraphEngine.mergePaths` along the backward map:
`while (backward.has(current) && backward.get(current) !== '')`.  The
chains built by `findPathBidirectional` are acyclic, so
`backward.length` steps suffice. -/
def backwardWalk (backward : List (String × String)) :
    Nat → String → List String → List String
  | 0, _, acc => acc
  | steps + 1, current, acc =>
    match jsGet backward current with
    | none => acc
    | some next =>
      if next = "" then acc
      else backwardWalk backward steps next (acc ++ [next])

/-- `GraphEngine.mergePaths`. -/
def mergePaths (forward backward : List (String × String))
    (meetingPoint : String) : List String :=
  reconstructPath forward meetingPoint ++
    backwardWalk backward backward.length meetingPoint []

/-- The mutable state of the `findPathBidirectional` loop. -/
structure BidiState where
  forwardVisited : List (String × String)
  backwardVisited : List (String × String)
  forwardQueue : List String
  backwardQueue : List String
  deriving Repr, DecidableEq

/-- The forward half of one `findPathBidirectional` iteration.  `Sum.inl`:
the function returns a merged path. -/
def bidiForward (st : Store) (s : BidiState) : Sum (List String) BidiState :=
  match s.forwardQueue with
  | [] => Sum.inr s
  | current :: rest =>
    if jsHas s.backwardVisited current then
      Sum.inl (mergePaths s.forwardVisited s.backwardVisited current)
    else
      Sum.inr
        ((getNeighbors st current).foldl
          (fun acc nb =>
            if jsHas acc.forwardVisited nb.1.id then acc
            else
              { acc with
                forwardVisited := jsSet acc.forwardVisited nb.1.id current
                forwardQueue := acc.forwardQueue ++ [nb.1.id] })
          { s with forwardQueue := rest })

/-- The backward half of one `findPathBidirectional` iteration, scanning
`this.edges.values()` for edges into `current`. -/
def bidiBackward (st : Store) (s : BidiState) :
    Sum (List String) BidiState :=
  match s.backwardQueue with
  | [] => Sum.inr s
  | current :: rest =>
    if jsHas s.forwardVisited current then
      Sum.inl (mergePaths s.forwardVisited s.backwardVisited current)
    else
      Sum.inr
        ((st.edges.map Prod.snd).foldl
          (fun acc e =>
            if e.target = current && !(jsHas acc.backwardVisited e.source)
            then
              { acc with
                backwardVisited := jsSet acc.backwardVisited e.source current
                backwardQueue := acc.backwardQueue ++ [e.source] }
            else acc)
          { s with backwardQueue := rest })

def bidiLoop (st : Store) :
    Nat → BidiState → Option (Option (List String))
  | 0, _ => none
  | fuel + 1, s =>
    if s.forwardQueue = [] ∧ s.backwardQueue = [] then some none
    else
      match bidiForward st s with
      | Sum.inl path => some (some path)
      | Sum.inr s1 =>
        match bidiBackward st s1 with
        | Sum.inl path => some (some path)
        | Sum.inr s2 => bidiLoop st fuel s2

/-- `GraphEngine.findPathBidirectional`.  Every id enters each queue at
most once (pushes are guarded by first-time insertion into the visited
maps), and every iteration pops from at least one nonempty queue, so
`|nodes| + |edges| + 3` iterations always suffice for the internal bound. -/
def findPathBidirectional (st : Store) (startId goalId : String)
    (_config : OptimizationConfig) : Option (List String) :=
  (bidiLoop st (st.nodes.length + st.edges.length + 3)
      { forwardVisited := [(startId, "")]
        backwardVisited := [(goalId, "")]
        forwardQueue := [startId]
        backwardQueue := [goalId] }).getD
    none

/-! ## Route builder (`GraphEngine.pathToRoute`) -/

/-- The edge selection of `pathToRoute`: the first edge in `u`'s adjacency
list that exists in the edge index and has target `v`. -/
def findConnectingEdge (st : Store) (u v : String) : Option NetworkEdge :=
  (((jsGet st.adj u).getD []).filterMap fun id => jsGet st.edges id).find?
    fun e => e.target == v

/-- The per-segment cost breakdown of `pathToRoute`.  The source computes
`total` afterwards by summing every numeric field of the object (the
not-yet-assigned `total` contributes `0`); the sum is written out here. -/
def segmentCostOf (fromNode : NetworkNode) (e : NetworkEdge) :
    CostBreakdown :=
  { linehaul := e.baseCost
    fuelSurcharge := e.fuelCost
    accessorials := 0
    detention := 0
    drayage := 0
    tolls := e.tollCost.getD 0
    customs := if fromNode.customsRequired then 150 else 0
    insurance := e.baseCost * 0.02
    total :=
      e.baseCost + e.fuelCost + 0 + 0 + 0 + e.tollCost.getD 0 +
        (if fromNode.customsRequired then 150 else 0) + e.baseCost * 0.02
    currency := "USD" }

/-- One `RouteSegment` of `pathToRoute` (`i` is the index of the node
pair). -/
def mkSegment (requestId : String) (i : Nat) (fromNode toNode : NetworkNode)
    (e : NetworkEdge) : RouteSegment :=
  { id := requestId ++ "-seg-" ++ toString i
    fromNode := fromNode
    toNode := toNode
    edge := e
    mode := e.mode
    distance := e.distance
    estimatedTime := e.baseTime
    cost := segmentCostOf fromNode e
    carbonEmissions := e.carbonEmissions * e.distance }

/-- The segment-building loop of `pathToRoute` over adjacent pairs of the
node path.  A pair with no connecting edge is silently skipped
(`if (!edge) continue`).  When an edge is found, the source dereferences
the pair's nodes (`this.nodes.get(...)!`): a missing from-node throws a
`TypeError` at the `customsRequired` access, and a missing to-node is
stored as `undefined`, poisoning every later `.id` access; both are
modelled as `none`. -/
def buildSegments (st : Store) (requestId : String) :
    List String → Nat → Option (List RouteSegment)
  | [], _ => some []
  | [_], _ => some []
  | u :: v :: rest, i =>
    match findConnectingEdge st u v with
    | none => buildSegments st requestId (v :: rest) (i + 1)
    | some e =>
      match jsGet st.nodes u, jsGet st.nodes v with
      | some fromNode, some toNode =>
        (buildSegments st requestId (v :: rest) (i + 1)).map
          fun segs => mkSegment requestId i fromNode toNode e :: segs
      | _, _ => none

/-- `GraphEngine.pathToRoute`.  The source accumulates the totals inside
the segment loop; since a total only changes when a segment is pushed,
they equal the componentwise sums over the produced segments, which is how
they are written here. -/
def pathToRoute (st : Store) (nodePath : List String)
    (_config : OptimizationConfig) (requestId : String) : Option Route :=
  match buildSegments st requestId nodePath 0 with
  | none => none
  | some segments =>
    some
      { id := requestId
        segments := segments
        totalDistance := (segments.map fun s => s.distance).sum
        totalTime := (segments.map fun s => s.estimatedTime).sum
        totalCost :=
          { linehaul := (segments.map fun s => s.cost.linehaul).sum
            fuelSurcharge := (segments.map fun s => s.cost.fuelSurcharge).sum
            accessorials := (segments.map fun s => s.cost.accessorials).sum
            detention := (segments.map fun s => s.cost.detention).sum
            drayage := (segments.map fun s => s.cost.drayage).sum
            tolls := (segments.map fun s => s.cost.tolls).sum
            customs := (segments.map fun s => s.cost.customs).sum
            insurance := (segments.map fun s => s.cost.insurance).sum
            total := (segments.map fun s => s.cost.total).sum
            currency := "USD" }
        totalCarbon := (segments.map fun s => s.carbonEmissions).sum
        serviceLevel := calculateServiceLevel segments
        reliability := calculateReliability segments
        riskScore := calculateRiskScore segments
        constraints := RouteConstraints.empty }

/-! ## Optimization engine (`OptimizationEngine`) -/

/-- The avoid-nodes / required-nodes checks of
`OptimizationEngine.validateConstraints` (reached only when the emissions
check does not return early). -/
def validateNodeConstraints (route : Route) (constraints : RouteConstraints) :
    Bool :=
  let usedNodes :=
    route.segments.flatMap fun s => [s.fromNode.id, s.toNode.id]
  (match constraints.avoidNodes with
    | none => true
    | some avoid => avoid.all fun a => !(usedNodes.contains a)) &&
  (match constraints.requiredNodes with
    | none => true
    | some required => required.all fun r => usedNodes.contains r)

/-- `OptimizationEngine.validateConstraints`.  Checks run in source order
with the source's early returns; in particular, an over-budget emissions
total with `preferLowEmission = true` returns `true` immediately,
skipping the avoid/required-node checks. -/
def validateConstraints (route : Route) (constraints : RouteConstraints) :
    Bool :=
  if (constraints.timeWindows.getD []).any (fun tw =>
      tw.hardConstraint &&
        decide (tw.endMs - tw.startMs < route.totalTime * 60 * 1000)) then
    false
  else if
      match constraints.capacity with
      | none => false
      | some cap =>
        !(route.segments.all fun seg =>
          decide (cap.maxWeight.getD 0 ≤ seg.edge.capacity)) then
    false
  else
    match constraints.emissions with
    | some em =>
      if em.maxCO2 < route.totalCarbon then
        if em.preferLowEmission then true else false
      else validateNodeConstraints route constraints
    | none => validateNodeConstraints route constraints

/-- The relaxed configuration built by
`OptimizationEngine.findAlternativeRoute`. -/
def relaxedConfig (config : OptimizationConfig) : OptimizationConfig :=
  { config with
    weights :=
      { cost := config.weights.cost * 0.8
        time := config.weights.time * 1.2
        carbon := config.weights.carbon * 0.9
        risk := config.weights.risk * 1.1
        serviceLevel := config.weights.serviceLevel } }

/-- `OptimizationEngine.findAlternativeRoute`: rerun Dijkstra once under
the relaxed weights, materialise, attach the constraints and return
without re-validating.  The source derives the route id from the wall
clock (`route-alt-${Date.now()}`); the model takes the clock reading as
the `now` argument.  The outer `none` models the `TypeError` thrown when
materialisation dereferences a missing node. -/
def findAlternativeRoute (st : Store) (startId goalId : String)
    (constraints : RouteConstraints) (config : OptimizationConfig)
    (now : String) : Option (Option Route) :=
  let relaxed := relaxedConfig config
  match findPathDijkstra st startId goalId relaxed with
  | none => some none
  | some nodePath =>
    match pathToRoute st nodePath relaxed ("route-alt-" ++ now) with
    | none => none
    | some route => some (some { route with constraints := constraints })

/-- The algorithm dispatch of `OptimizationEngine.findOptimalRoute`
(`hybrid` = A*, then Dijkstra if A* found nothing; unknown algorithms fall
through to A*).  Outer `none`: the A* loop has not returned within
`fuel` iterations. -/
def dispatchAlgorithm (hfun : String → String → WithTop ℚ) (fuel : Nat)
    (st : Store) (startId goalId : String) (config : OptimizationConfig) :
    Option (Option (List String)) :=
  match config.algorithm with
  | "astar" => findPathAStar hfun st startId goalId config fuel
  | "dijkstra" => some (findPathDijkstra st startId goalId config)
  | "bidirectional" => some (findPathBidirectional st startId goalId config)
  | "hybrid" =>
    match findPathAStar hfun st startId goalId config fuel with
    | none => none
    | some none => some (findPathDijkstra st startId goalId config)
    | some (some nodePath) => some (some nodePath)
  | _ => findPathAStar hfun st startId goalId config fuel

/-- `OptimizationEngine.findOptimalRoute`.  Outer `none`: the call never
returns normally (a solver that loops beyond `fuel`, or a `TypeError`
during materialisation); `some none`: the source returns `null`.
`route.metadata` (wall-clock diagnostics) and the stochastic confidence
band are not modelled (see `Route`). -/
def findOptimalRoute (hfun : String → String → WithTop ℚ) (fuel : Nat)
    (st : Store) (startId goalId : String) (constraints : RouteConstraints)
    (config : OptimizationConfig) (now : String) : Option (Option Route) :=
  match dispatchAlgorithm hfun fuel st startId goalId config with
  | none => none
  | some none => some none
  | some (some nodePath) =>
    match pathToRoute st nodePath config ("route-" ++ now) with
    | none => none
    | some route0 =>
      let route := { route0 with constraints := constraints }
      if validateConstraints route constraints then some (some route)
      else findAlternativeRoute st startId goalId constraints config now

/-- The fixed configuration used by `reoptimizeRoute`'s SOLVE step. -/
def reoptimizeConfig : OptimizationConfig :=
  { objectives := ["minimize_time", "minimize_cost"]
    weights :=
      { cost := 0.4, time := 0.6, carbon := 0, risk := 0, serviceLevel := 0 }
    algorithm := "hybrid"
    considerTraffic := true
    considerWeather := true
    stochastic := false
    confidenceLevel := none }

/-- The SNAPSHOT/REMOVE phase of `reoptimizeRoute`: for each disrupted
edge id present in the store, remember the edge record and remove it. -/
def removeDisrupted (disruptedEdges : List String)
    (acc : List (String × NetworkEdge) × Store) :
    List (String × NetworkEdge) × Store :=
  disruptedEdges.foldl
    (fun acc edgeId =>
      match getEdge acc.2 edgeId with
      | some e => (jsSet acc.1 edgeId e, removeEdge acc.2 edgeId)
      | none => acc)
    acc

/-- `OptimizationEngine.reoptimizeRoute`.  Returns the solve result
together with the final store.  The source has no `try`/`finally`: when
computing the destination throws (`currentRoute.segments[len-1].to.id` on
an empty segment list) or when the solve never returns, the RESTORE loop
is skipped — modelled by returning the un-restored store with result
`none`. -/
def reoptimizeRoute (hfun : String → String → WithTop ℚ) (fuel : Nat)
    (st : Store) (currentRoute : Route) (currentPosition : String)
    (disruptedEdges : List String) (now : String) :
    Option (Option Route) × Store :=
  let phase := removeDisrupted disruptedEdges ([], st)
  let removedEdges := phase.1
  let st1 := phase.2
  match currentRoute.segments.getLast? with
  | none => (none, st1)
  | some lastSeg =>
    match
      findOptimalRoute hfun fuel st1 currentPosition lastSeg.toNode.id
        currentRoute.constraints reoptimizeConfig now
    with
    | none => (none, st1)
    | some result =>
      (some result, removedEdges.foldl (fun s p => addEdge s p.2) st1)

/-! ## Pareto frontier -/

/-- The 4-dimensional objective projection used by `findParetoOptimal`. -/
structure RouteObjectives where
  cost : ℚ
  time : ℚ
  carbon : ℚ
  risk : ℚ
  deriving Repr, DecidableEq

def objectivesOf (route : Route) : RouteObjectives :=
  { cost := route.totalCost.total
    time := route.totalTime
    carbon := route.totalCarbon
    risk := route.riskScore }

/-- The dominance test of `findParetoOptimal`: `other` dominates `this`
iff it is ≤ on all four objectives and < on at least one. -/
def dominates (other this : RouteObjectives) : Bool :=
  (decide (other.cost ≤ this.cost) && decide (other.time ≤ this.time) &&
      decide (other.carbon ≤ this.carbon) &&
      decide (other.risk ≤ this.risk)) &&
    (decide (other.cost < this.cost) || decide (other.time < this.time) ||
      decide (other.carbon < this.carbon) || decide (other.risk < this.risk))

structure ParetoPoint where
  route : Route
  objectives : RouteObjectives
  isOptimal : Bool
  deriving Repr, DecidableEq

/-- `OptimizationEngine.findParetoOptimal`: every candidate is reported;
`isOptimal` is the negation of "some candidate with a *different id*
dominates it" (the inner loop skips candidates with
`route.id === otherRoute.id` and breaks at the first dominator, i.e. it
is an existential scan). -/
def findParetoOptimal (routes : List Route) : List ParetoPoint :=
  routes.map fun route =>
    { route := route
      objectives := objectivesOf route
      isOptimal :=
        !(routes.any fun otherRoute =>
          (otherRoute.id != route.id) &&
            dominates (objectivesOf otherRoute) (objectivesOf route)) }

/-- `OptimizationEngine.generateWeightCombinations`.  The source iterates
`for (k = 0; k <= steps - i - j; k++)` over JavaScript numbers: a negative
bound runs zero iterations, which `List.range (6 - i - j)` reproduces
through truncated `Nat` subtraction.  The `objectives` argument is unused
by the source as well. -/
def generateWeightCombinations (_objectives : List String) : List Weights :=
  (List.range 6).flatMap fun i =>
    (List.range 6).flatMap fun j =>
      (List.range (6 - i - j)).map fun k =>
        { cost := (i : ℚ) / 5
          time := (j : ℚ) / 5
          carbon := (k : ℚ) / 5
          risk := (1 - (i : ℚ) / 5 - (j : ℚ) / 5 - (k : ℚ) / 5) * 0.5
          serviceLevel :=
            (1 - (i : ℚ) / 5 - (j : ℚ) / 5 - (k : ℚ) / 5) * 0.5 }

/-- The candidate-collection loop of
`OptimizationEngine.generateParetoFrontier`: one `findOptimalRoute` call
per weight vector, keeping the non-`null` routes in order.  `none`
propagates a solve that never returns. -/
def collectCandidates (hfun : String → String → WithTop ℚ) (fuel : Nat)
    (st : Store) (startId goalId : String) (constraints : RouteConstraints)
    (objectives : List String) (now : String) :
    List Weights → Option (List Route)
  | [] => some []
  | w :: ws =>
    let config : OptimizationConfig :=
      { objectives := objectives
        weights := w
        algorithm := "hybrid"
        considerTraffic := true
        considerWeather := true
        stochastic := false
        confidenceLevel := none }
    match findOptimalRoute hfun fuel st startId goalId constraints config now
    with
    | none => none
    | some none =>
      collectCandidates hfun fuel st startId goalId constraints objectives
        now ws
    | some (some route) =>
      (collectCandidates hfun fuel st startId goalId constraints objectives
          now ws).map
        fun routes => route :: routes

/-- `OptimizationEngine.generateParetoFrontier`, up to the metadata (point
counts and wall-clock time): the Pareto filter applied to the collected
candidates. -/
def generateParetoFrontier (hfun : String → String → WithTop ℚ) (fuel : Nat)
    (st : Store) (startId goalId : String) (constraints : RouteConstraints)
    (objectives : List String) (now : String) : Option (List ParetoPoint) :=
  (collectCandidates hfun fuel st startId goalId constraints objectives now
      (generateWeightCombinations objectives)).map
    findParetoOptimal

/-! ## Claim-side predicates

These definitions formalise the *language of the claims* (not source
code); each is used to state a claim about the definitions above. -/

/-- C3's invariant: adjacent segments chain
(`segments[i].to.id == segments[i+1].from.id`). -/
def segmentsChained : List RouteSegment → Bool
  | [] => true
  | [_] => true
  | s :: t :: rest => (s.toNode.id == t.fromNode.id) && segmentsChained (t :: rest)

/-- C3's hypothesis: every adjacent pair of the node path has a connecting
edge in the store. -/
def allPairsConnected (st : Store) : List String → Bool
  | [] => true
  | [_] => true
  | u :: v :: rest =>
    (findConnectingEdge st u v).isSome && allPairsConnected st (v :: rest)

/-- Store hygiene: every node is indexed under its own id (maintained by
`addNode`, which keys the map by `node.id`). -/
def nodesWellKeyed (st : Store) : Bool :=
  st.nodes.all fun p => p.2.id == p.1

/-- Store hygiene: every edge is indexed under its own id and the edge
index has no duplicate keys (both maintained by `addEdge`/`removeEdge`,
since a JavaScript `Map` cannot hold duplicate keys). -/
def edgesWellKeyed (st : Store) : Prop :=
  (st.edges.map Prod.fst).Nodup ∧ ∀ p ∈ st.edges, p.2.id = p.1

instance (st : Store) : Decidable (edgesWellKeyed st) := by
  unfold edgesWellKeyed
  infer_instance

/-- C10's subject: `findPathAStar` terminates on the given input, i.e.
the source's `while` loop returns after finitely many iterations. -/
def astarTerminates (hfun : String → String → WithTop ℚ) (st : Store)
    (startId goalId : String) (config : OptimizationConfig) : Prop :=
  ∃ fuel, (findPathAStar hfun st startId goalId config fuel).isSome

/-- Invariant of `reoptimizeRoute`'s SNAPSHOT/REMOVE phase, relating the
original store, the snapshot map `removed` and the current store `cur`:
the snapshot holds exactly the original records of the edges removed so
far, and the untouched edges still read as in the original store. -/
def RemovalInv (store : Store) (removed : List (String × NetworkEdge))
    (cur : Store) : Prop :=
  (removed.map Prod.fst).Nodup ∧
  (∀ p ∈ removed, p.2.id = p.1) ∧
  (∀ q e, jsGet removed q = some e →
    jsGet store.edges q = some e ∧ jsGet cur.edges q = none) ∧
  (∀ q, jsGet removed q = none →
    jsGet cur.edges q = jsGet store.edges q) ∧
  (cur.edges.map Prod.fst).Nodup ∧
  (∀ p ∈ cur.edges, p.2.id = p.1)

/-! ## Concrete networks and fixtures for witnesses and counterexamples -/

def nodeA : NetworkNode := { id := "a", lat := 0, lng := 0, customsRequired := false }

def nodeB : NetworkNode := { id := "b", lat := 1, lng := 1, customsRequired := false }

def nodeC : NetworkNode := { id := "c", lat := 2, lng := 2, customsRequired := false }

def nodeD : NetworkNode := { id := "d", lat := 3, lng := 3, customsRequired := false }

def edgeAB : NetworkEdge :=
  { id := "eAB", source := "a", target := "b", mode := "road", distance := 10
    baseTime := 5, baseCost := 3, capacity := 100, reliability := 9/10
    carbonEmissions := 1/10, fuelCost := 2, tollCost := none }

def edgeBC : NetworkEdge :=
  { edgeAB with id := "eBC", source := "b", target := "c" }

def edgeCD : NetworkEdge :=
  { edgeAB with id := "eCD", source := "c", target := "d" }

def emptyStore : Store := { nodes := [], edges := [], adj := [] }

/-- A single node `a`. -/
def storeA : Store := addNode emptyStore nodeA

/-- Nodes `a`, `b` and the single edge `a → b`. -/
def storeAB : Store := addEdge (addNode (addNode emptyStore nodeA) nodeB) edgeAB

/-- Nodes `a`, `b`, `c` with edges `a → b → c`. -/
def storeChain3 : Store :=
  addEdge (addEdge (addNode (addNode (addNode emptyStore nodeA) nodeB) nodeC)
    edgeAB) edgeBC

/-- Nodes `a`, `b`, `c`, `d` with edges `a → b` and `c → d` but *no*
`b → c` edge. -/
def storeGap4 : Store :=
  addEdge (addEdge
    (addNode (addNode (addNode (addNode emptyStore nodeA) nodeB) nodeC) nodeD)
    edgeAB) edgeCD

def cfg0 : OptimizationConfig :=
  { objectives := ["minimize_cost", "minimize_time"]
    weights := { cost := 1/2, time := 1/2, carbon := 0, risk := 0, serviceLevel := 0 }
    algorithm := "hybrid"
    considerTraffic := true
    considerWeather := true
    stochastic := false
    confidenceLevel := none }

def cfgBidi : OptimizationConfig := { cfg0 with algorithm := "bidirectional" }

/-- Constraints forbidding node `a`. -/
def avoidAConstraints : RouteConstraints :=
  { RouteConstraints.empty with avoidNodes := some ["a"] }

def zeroCost : CostBreakdown :=
  { linehaul := 0, fuelSurcharge := 0, accessorials := 0, detention := 0
    drayage := 0, tolls := 0, customs := 0, insurance := 0, total := 0
    currency := "USD" }

/-- A route literal with no segments and all four Pareto objectives equal
to `v`. -/
def flatRoute (id : String) (v : ℚ) : Route :=
  { id := id, segments := [], totalDistance := 0, totalTime := v
    totalCost := { zeroCost with total := v }, totalCarbon := v
    serviceLevel := 0, reliability := 0, riskScore := v
    constraints := RouteConstraints.empty }

/-- Two Pareto candidates sharing the id `r`; `routeRzero` dominates
`routeRone`. -/
def routeRone : Route := flatRoute "r" 1

def routeRzero : Route := flatRoute "r" 0

/-- Two Pareto candidates with distinct ids; `routeY` dominates `routeX`. -/
def routeX : Route := flatRoute "x" 1

def routeY : Route := flatRoute "y" 0

/-- An edge stored under id `x`. -/
def edgeX0 : NetworkEdge :=
  { edgeAB with id := "x", source := "a", target := "b", baseCost := 1 }

/-- A different edge with the *same* id `x`. -/
def edgeX1 : NetworkEdge := { edgeX0 with baseCost := 7 }

/-- A store already containing `edgeX0` under id `x`. -/
def storeX : Store :=
  { nodes := [], edges := [("x", edgeX0)], adj := [("a", ["x"])] }

/-- A fresh edge out of `a` for the C7 witness. -/
def edgeAB9 : NetworkEdge := { edgeAB with id := "e9" }

/-- A current route with no segments (C1 counterexample: computing the
re-route destination throws on it). -/
def routeNoSegs : Route := flatRoute "cur" 0

/-- A current route ending at node `b`. -/
def routeToB : Route :=
  { flatRoute "cur" 0 with segments := [mkSegment "cur" 0 nodeA nodeB edgeAB] }

/-- The initial `findPathAStar` state for start = goal = `a` on `storeA`. -/
def astarInitA : AStarState :=
  { openSet := ["a"], cameFrom := [], gScore := [("a", (0 : WithTop ℚ))]
    fScore := [("a", heuristic storeA "a" "a")] }

/-- The weight grid described by the claims: one vector for each triple
`(i, j, k)` of non-negative integers with `i + j + k ≤ 5`, with
`cost = i/5`, `time = j/5`, `carbon = k/5` and
`risk = serviceLevel = (1 − cost − time − carbon)/2`. -/
def simplexWeight (i j k : Nat) : Weights :=
  { cost := (i : ℚ) / 5
    time := (j : ℚ) / 5
    carbon := (k : ℚ) / 5
    risk := (1 - (i : ℚ) / 5 - (j : ℚ) / 5 - (k : ℚ) / 5) / 2
    serviceLevel := (1 - (i : ℚ) / 5 - (j : ℚ) / 5 - (k : ℚ) / 5) / 2 }

/-- The 56 grid points of the claim, enumerated over the simplex. -/
def paretoWeightGrid : List Weights :=
  (List.range 6).flatMap fun i =>
    (List.range (6 - i)).flatMap fun j =>
      (List.range (6 - i - j)).map fun k => simplexWeight i j k

/-- Two nodes with distinct coordinates and *no* edges (the 56 Pareto
solves all return "no route"). -/
def storeTwoIsolated : Store := addNode (addNode emptyStore nodeA) nodeB

/-! ## Lemmas about the JavaScript map model -/

theorem jsGet_jsSet_self {α : Type} (m : List (String × α)) (k : String)
    (v : α) : jsGet (jsSet m k v) k = some v := by
  induction m with
  | nil => simp [jsSet, jsGet]
  | cons p rest ih =>
    obtain ⟨k', v'⟩ := p
    by_cases h : k' = k <;> simp [jsSet, jsGet, h, ih]

theorem jsGet_jsSet_ne {α : Type} (m : List (String × α)) (k q : String)
    (v : α) (h : q ≠ k) : jsGet (jsSet m k v) q = jsGet m q := by
  induction m with
  | nil =>
    have : ¬ k = q := fun hh => h hh.symm
    simp [jsSet, jsGet, this]
  | cons p rest ih =>
    obtain ⟨k', v'⟩ := p
    by_cases hk : k' = k
    · subst hk
      have : ¬ k' = q := fun hh => h hh.symm
      simp [jsSet, jsGet, this]
    · by_cases hq : k' = q
      · subst hq
        simp [jsSet, jsGet, hk]
      · simp [jsSet, jsGet, hk, hq, ih]

theorem jsSet_of_jsGet_none {α : Type} (m : List (String × α)) (k : String)
    (v : α) (h : jsGet m k = none) : jsSet m k v = m ++ [(k, v)] := by
  induction m with
  | nil => simp [jsSet]
  | cons p rest ih =>
    obtain ⟨k', v'⟩ := p
    by_cases hk : k' = k
    · simp [jsGet, hk] at h
    · simp [jsGet, hk] at h
      simp [jsSet, hk, ih h]

theorem jsSet_of_jsGet_some {α : Type} (m : List (String × α)) (k : String)
    (v : α) (h : jsGet m k = some v) : jsSet m k v = m := by
  induction m with
  | nil => simp [jsGet] at h
  | cons p rest ih =>
    obtain ⟨k', v'⟩ := p
    by_cases hk : k' = k
    · simp [jsGet, hk] at h
      simp [jsSet, hk, h]
    · simp [jsGet, hk] at h
      simp [jsSet, hk, ih h]

theorem jsDelete_append_fresh {α : Type} (m : List (String × α)) (k : String)
    (v : α) (h : jsGet m k = none) : jsDelete (m ++ [(k, v)]) k = m := by
  induction m with
  | nil => simp [jsDelete]
  | cons p rest ih =>
    obtain ⟨k', v'⟩ := p
    by_cases hk : k' = k
    · simp [jsGet, hk] at h
    · simp [jsGet, hk] at h
      simp [jsDelete, hk, ih h]

theorem jsGet_jsDelete_ne {α : Type} (m : List (String × α)) (k q : String)
    (h : q ≠ k) : jsGet (jsDelete m k) q = jsGet m q := by
  induction m with
  | nil => simp [jsDelete]
  | cons p rest ih =>
    obtain ⟨k', v'⟩ := p
    by_cases hk : k' = k
    · subst hk
      have : ¬ k' = q := fun hh => h hh.symm
      simp [jsDelete, jsGet, this]
    · by_cases hq : k' = q
      · subst hq
        simp [jsDelete, jsGet, hk]
      · simp [jsDelete, jsGet, hk, hq, ih]

theorem jsGet_jsDelete_self_of_nodup {α : Type} (m : List (String × α))
    (k : String) (h : (m.map Prod.fst).Nodup) :
    jsGet (jsDelete m k) k = none := by
  induction m with
  | nil => simp [jsDelete, jsGet]
  | cons p rest ih =>
    obtain ⟨k', v'⟩ := p
    simp only [List.map_cons, List.nodup_cons] at h
    by_cases hk : k' = k
    · subst hk
      rcases hv : jsGet rest k' with _ | v
      · simp [jsDelete, hv]
      · exfalso
        have : k' ∈ rest.map Prod.fst := by
          clear ih h
          induction rest with
          | nil => simp [jsGet] at hv
          | cons q t iht =>
            obtain ⟨kq, vq⟩ := q
            by_cases hq : kq = k'
            · simp [hq]
            · simp only [jsGet, hq, if_false] at hv
              simp [iht hv]
        exact h.1 this
    · simp [jsDelete, jsGet, hk, ih h.2]

theorem jsGet_mem {α : Type} (m : List (String × α)) (k : String) (v : α)
    (h : jsGet m k = some v) : (k, v) ∈ m := by
  induction m with
  | nil => simp [jsGet] at h
  | cons p rest ih =>
    obtain ⟨k', v'⟩ := p
    by_cases hk : k' = k
    · subst hk
      simp [jsGet] at h
      simp [h]
    · simp only [jsGet, hk, if_false] at h
      exact List.mem_cons_of_mem _ (ih h)

theorem jsGet_eq_none_of_not_mem {α : Type} (m : List (String × α))
    (k : String) (h : k ∉ m.map Prod.fst) : jsGet m k = none := by
  induction m with
  | nil => simp [jsGet]
  | cons p rest ih =>
    obtain ⟨k', v'⟩ := p
    simp only [List.map_cons, List.mem_cons] at h
    push_neg at h
    have h1 : ¬ k' = k := fun hh => h.1 hh.symm
    simp [jsGet, h1, ih h.2]

theorem not_mem_of_jsGet_eq_none {α : Type} (m : List (String × α))
    (k : String) (h : jsGet m k = none) : k ∉ m.map Prod.fst := by
  induction m with
  | nil => simp
  | cons p rest ih =>
    obtain ⟨k', v'⟩ := p
    by_cases hk : k' = k
    · simp [jsGet, hk] at h
    · simp only [jsGet, hk, if_false] at h
      simp only [List.map_cons, List.mem_cons]
      push_neg
      exact ⟨fun hh => hk hh.symm, ih h⟩

theorem jsGet_append {α : Type} (m m' : List (String × α)) (q : String) :
    jsGet (m ++ m') q =
      match jsGet m q with
      | some v => some v
      | none => jsGet m' q := by
  induction m with
  | nil => simp [jsGet]
  | cons p rest ih =>
    obtain ⟨k', v'⟩ := p
    by_cases hk : k' = q <;> simp [jsGet, hk, ih]

theorem jsSet_jsSet {α : Type} (m : List (String × α)) (k : String)
    (v w : α) : jsSet (jsSet m k v) k w = jsSet m k w := by
  induction m with
  | nil => simp [jsSet]
  | cons p rest ih =>
    obtain ⟨k', v'⟩ := p
    by_cases hk : k' = k <;> simp [jsSet, hk, ih]

theorem jsDelete_sublist {α : Type} (m : List (String × α)) (k : String) :
    (jsDelete m k).Sublist m := by
  induction m with
  | nil => simp [jsDelete]
  | cons p rest ih =>
    obtain ⟨k', v'⟩ := p
    by_cases hk : k' = k
    · simp only [jsDelete, hk, if_true]
      exact List.sublist_cons_self _ _
    · simp only [jsDelete, hk, if_false]
      exact List.Sublist.cons₂ _ ih

/-! ## General lemmas about the solvers -/

theorem scanMin_of_all_top (f : String → WithTop ℚ) (xs : List String)
    (h : ∀ x, f x = ⊤) : scanMin f xs = ("", ⊤) := by
  unfold scanMin
  induction xs with
  | nil => rfl
  | cons x t ih => simpa [h x] using ih

theorem scanMin_mem (f : String → WithTop ℚ) (xs : List String)
    (h : (scanMin f xs).2 ≠ ⊤) : (scanMin f xs).1 ∈ xs := by
  have key : ∀ (l : List String) (acc : String × WithTop ℚ),
      l.foldl (fun acc x => if f x < acc.2 then (x, f x) else acc) acc = acc ∨
      (l.foldl (fun acc x => if f x < acc.2 then (x, f x) else acc) acc).1 ∈ l := by
    intro l
    induction l with
    | nil => intro acc; left; rfl
    | cons x t ih =>
      intro acc
      simp only [List.foldl_cons]
      by_cases hx : f x < acc.2
      · rw [if_pos hx]
        rcases ih (x, f x) with heq | hmem
        · right; rw [heq]; exact List.mem_cons_self x t
        · right; exact List.mem_cons_of_mem _ hmem
      · rw [if_neg hx]
        rcases ih acc with heq | hmem
        · left; exact heq
        · right; exact List.mem_cons_of_mem _ hmem
  rcases key xs ("", ⊤) with heq | hmem
  · exact absurd (congrArg Prod.snd heq) h
  · exact hmem

/-- Every value stored by the initialisation loop of `findPathDijkstra`
is `Infinity` or `0`, so `dist.get(x) || Infinity` is `Infinity` for
every `x` — the first minimum scan finds nothing below `Infinity`. -/
theorem jsGetOrInf_dijkstra_init (nodeIds : List String) (startId q : String) :
    jsGetOrInf
      (jsSet (nodeIds.foldl (fun m nodeId => jsSet m nodeId (⊤ : WithTop ℚ)) [])
        startId 0) q = ⊤ := by
  have base : ∀ (ids : List String) (m : List (String × WithTop ℚ)),
      (jsGet m q = none ∨ jsGet m q = some ⊤) →
      (jsGet (ids.foldl (fun m nodeId => jsSet m nodeId (⊤ : WithTop ℚ)) m) q
          = none ∨
        jsGet (ids.foldl (fun m nodeId => jsSet m nodeId (⊤ : WithTop ℚ)) m) q
          = some ⊤) := by
    intro ids
    induction ids with
    | nil => intro m hm; exact hm
    | cons x t ih =>
      intro m hm
      simp only [List.foldl_cons]
      apply ih
      by_cases hx : q = x
      · subst hx; right; exact jsGet_jsSet_self m q ⊤
      · rw [jsGet_jsSet_ne m x q ⊤ hx]; exact hm
  by_cases hq : q = startId
  · subst hq
    rw [jsGetOrInf, jsGet_jsSet_self]
    norm_num
  · rw [jsGetOrInf, jsGet_jsSet_ne _ _ _ _ hq]
    rcases base nodeIds [] (Or.inl rfl) with hnone | htop
    · rw [hnone]
    · rw [htop]
      simp

/-- The falsy-zero bug in full: `findPathDijkstra` returns `null` for
*every* store, start and goal (with a nonempty goal id).  The start
distance is initialised to `0`, but `distances.get(x) || Infinity` turns
that `0` into `Infinity`, so the very first minimum scan selects no node
and the `minDist === Infinity` break fires immediately. -/
theorem findPathDijkstra_eq_none (st : Store) (startId goalId : String)
    (config : OptimizationConfig) (hgoal : goalId ≠ "") :
    findPathDijkstra st startId goalId config = none := by
  unfold findPathDijkstra
  set nodeIds := st.nodes.map Prod.fst with hids
  set dists :=
    jsSet (nodeIds.foldl (fun m nodeId => jsSet m nodeId (⊤ : WithTop ℚ)) [])
      startId 0 with hd
  have hstep :
      dijkstraStep st goalId config
        { distances := dists, previous := [], unvisited := nodeIds } =
      Sum.inl none := by
    unfold dijkstraStep
    by_cases hempty : nodeIds = []
    · simp [hempty]
    · have hscan :
          scanMin (fun nodeId => jsGetOrInf dists nodeId) nodeIds = ("", ⊤) :=
        scanMin_of_all_top _ _ (fun x => hd ▸ jsGetOrInf_dijkstra_init _ _ _)
      have hne : ¬ ("" = goalId) := fun h => hgoal h.symm
      simp [hempty, hscan, hne]
  simp [dijkstraLoop, hstep]

/-- Fuel-sufficiency for the internal bound of `findPathDijkstra`: every
continuing iteration removes the scanned node (an element of `unvisited`)
from `unvisited`. -/
theorem dijkstraLoop_completes (st : Store) (goalId : String)
    (config : OptimizationConfig) :
    ∀ (fuel : Nat) (s : DijkstraState), s.unvisited.length < fuel →
      (dijkstraLoop st goalId config fuel s).isSome := by
  have relax_unvisited :
      ∀ (l : List (NetworkNode × NetworkEdge)) (current : String)
        (s : DijkstraState),
        (l.foldl (dijkstraRelax config current) s).unvisited = s.unvisited := by
    intro l
    induction l with
    | nil => intro current s; rfl
    | cons nb t ih =>
      intro current s
      simp only [List.foldl_cons]
      rw [ih]
      unfold dijkstraRelax
      by_cases h1 : nb.1.id ∈ s.unvisited
      · simp only [h1, if_true]
        split <;> rfl
      · simp [h1]
  intro fuel
  induction fuel with
  | zero => intro s h; omega
  | succ n ih =>
    intro s h
    rw [dijkstraLoop]
    rcases hstep : dijkstraStep st goalId config s with r | s'
    · simp
    · simp only
      apply ih
      unfold dijkstraStep at hstep
      by_cases hempty : s.unvisited = []
      · simp [hempty] at hstep
      · simp only [hempty, if_false] at hstep
        by_cases hgoal :
            (scanMin (fun nodeId => jsGetOrInf s.distances nodeId)
              s.unvisited).1 = goalId
        · simp [hgoal] at hstep
        · simp only [hgoal, if_false] at hstep
          by_cases htop :
              (scanMin (fun nodeId => jsGetOrInf s.distances nodeId)
                s.unvisited).2 = ⊤
          · simp [htop] at hstep
          · simp only [htop, if_false, Sum.inr.injEq] at hstep
            have hmem := scanMin_mem _ _ htop
            rw [← hstep, relax_unvisited]
            simp only
            rw [List.length_erase_of_mem hmem]
            have hpos : 0 < s.unvisited.length := List.length_pos.mpr hempty
            omega

/-- Relaxation is a no-op whenever the g-score of the expanded node reads
as `Infinity` — and `gScore.get(current) || Infinity` reads the start
node's stored `0` as `Infinity`, so in fact no relaxation of the source
ever succeeds. -/
theorem astarRelax_fold_id (hfun : String → String → WithTop ℚ)
    (goalId : String) (config : OptimizationConfig) (current : String)
    (l : List (NetworkNode × NetworkEdge)) (s : AStarState)
    (h : jsGetOrInf s.gScore current = ⊤) :
    l.foldl (astarRelax hfun goalId config current) s = s := by
  induction l with
  | nil => rfl
  | cons nb t ih =>
    simp only [List.foldl_cons]
    have hone : astarRelax hfun goalId config current s nb = s := by
      unfold astarRelax
      rw [h, top_add]
      simp [not_top_lt]
    rw [hone, ih]

/-- C10 (amended): `findPathAStar` terminates — within two loop
iterations — whenever the heuristic value between the endpoints is finite
and nonzero.  The claim's own precondition (both endpoints present,
non-negative finite weights) is not sufficient: a present endpoint pair
with heuristic `0` (equal endpoints, or coinciding coordinates) is read
back as `Infinity` by `fScore.get(x) || Infinity`, the minimum scan then
selects no node and the loop never shrinks the open set (see
`C10_counterexample`).  With a finite nonzero heuristic the start node is
expanded first; since `gScore.get(start) || Infinity` also turns the
stored `0` into `Infinity`, no relaxation ever fires, so the loop either
returns `[start]` (start = goal) or empties the open set and returns
`null`. -/
theorem C10_astar_terminates (hfun : String → String → WithTop ℚ)
    (st : Store) (startId goalId : String) (config : OptimizationConfig)
    (h0 : hfun startId goalId ≠ 0) (htop : hfun startId goalId ≠ ⊤) :
    (findPathAStar hfun st startId goalId config 2).isSome := by
  have hf :
      jsGetOrInf [(startId, hfun startId goalId)] startId =
        hfun startId goalId := by
    rw [jsGetOrInf, jsGet]
    simp [h0]
  have hscan :
      scanMin (fun nodeId =>
        jsGetOrInf [(startId, hfun startId goalId)] nodeId) [startId] =
      (startId, hfun startId goalId) := by
    unfold scanMin
    simp only [List.foldl_cons, List.foldl_nil, hf]
    rw [if_pos (WithTop.lt_top_iff_ne_top.mpr htop)]
  by_cases hgoal : startId = goalId
  · subst hgoal
    have hstep :
        astarStep hfun st startId config
          { openSet := [startId], cameFrom := [],
            gScore := [(startId, (0 : WithTop ℚ))],
            fScore := [(startId, hfun startId startId)] } =
        Sum.inl (some (reconstructPath [] startId)) := by
      simp [astarStep, hscan]
    unfold findPathAStar astarLoop
    rw [hstep]
    simp
  · have hstep :
        astarStep hfun st goalId config
          { openSet := [startId], cameFrom := [],
            gScore := [(startId, (0 : WithTop ℚ))],
            fScore := [(startId, hfun startId goalId)] } =
        Sum.inr
          { openSet := [], cameFrom := [],
            gScore := [(startId, (0 : WithTop ℚ))],
            fScore := [(startId, hfun startId goalId)] } := by
      unfold astarStep
      simp only [hscan]
      have hne : ¬ ([startId] = ([] : List String)) := by simp
      rw [if_neg hne, if_neg hgoal]
      congr 1
      have herase : [startId].erase startId = [] := by
        simp [List.erase_cons_head]
      have hg : jsGetOrInf [(startId, (0 : WithTop ℚ))] startId = ⊤ := by
        rw [jsGetOrInf, jsGet]
        simp
      rw [herase]
      exact astarRelax_fold_id hfun goalId config startId _ _ hg
    have hstep2 :
        astarStep hfun st goalId config
          { openSet := [], cameFrom := [],
            gScore := [(startId, (0 : WithTop ℚ))],
            fScore := [(startId, hfun startId goalId)] } =
        Sum.inl none := by
      unfold astarStep
      simp
    unfold findPathAStar astarLoop
    rw [hstep]
    unfold astarLoop
    rw [hstep2]
    simp

/-- One loop iteration of `findPathAStar (heuristic storeA) storeA "a" "a"`
maps the initial state to itself: the heuristic of the present pair
`(a, a)` is `0`, the stored f-score `0` reads back as `Infinity` through
`|| Infinity`, the minimum scan selects no node (`current` stays `''`),
`openSet.delete('')` removes nothing and `''` has no neighbors. -/
theorem astarStep_storeA_fixpoint :
    astarStep (heuristic storeA) storeA "a" cfg0 astarInitA =
      Sum.inr astarInitA := by decide

theorem astarLoop_storeA_none (fuel : Nat) :
    astarLoop (heuristic storeA) storeA "a" cfg0 fuel astarInitA = none := by
  induction fuel with
  | zero => rfl
  | succ n ih =>
    show astarLoop (heuristic storeA) storeA "a" cfg0 (n + 1) astarInitA = none
    rw [astarLoop, astarStep_storeA_fixpoint]
    exact ih

/-- C10, counterexample: on the store with the single node `a`, the call
`findPathAStar(a, a, cfg0)` satisfies the claim's precondition — both
endpoints are present and every weight component is non-negative (and
finite) — yet the loop never returns: the claim as stated is false. -/
theorem C10_counterexample :
    (getNode storeA "a").isSome = true ∧
    (0 ≤ cfg0.weights.cost ∧ 0 ≤ cfg0.weights.time ∧
      0 ≤ cfg0.weights.carbon ∧ 0 ≤ cfg0.weights.risk ∧
      0 ≤ cfg0.weights.serviceLevel) ∧
    ¬ astarTerminates (heuristic storeA) storeA "a" "a" cfg0 := by
  refine ⟨by decide, by decide, ?_⟩
  rintro ⟨fuel, hsome⟩
  have hinit :
      findPathAStar (heuristic storeA) storeA "a" "a" cfg0 fuel =
        astarLoop (heuristic storeA) storeA "a" cfg0 fuel astarInitA := rfl
  rw [hinit, astarLoop_storeA_none] at hsome
  simp at hsome

/-- C10, witness: on `storeAB` the heuristic between `a` and `b` is finite
and nonzero, and A* indeed returns within two iterations. -/
theorem C10_witness :
    heuristic storeAB "a" "b" ≠ 0 ∧ heuristic storeAB "a" "b" ≠ ⊤ ∧
      (findPathAStar (heuristic storeAB) storeAB "a" "b" cfg0 2).isSome :=
  ⟨by decide, by decide,
    C10_astar_terminates (heuristic storeAB) storeAB "a" "b" cfg0
      (by decide) (by decide)⟩

/-! ## C2: what the three solvers actually return -/

/-- C2: on the two-node store with the single edge `a → b` — so a path
from `a` to `b` exists (the connecting edge is in the store, and the
bidirectional probe reaches `b`) — `findPathDijkstra` returns NONE
(`distances.get(start) || Infinity` turns the initial `0` into
`Infinity`, so the first scan finds no node and the disconnected-break
fires), `findPathAStar` also returns NONE (the same falsy-zero default on
`gScore` makes every tentative g-score `Infinity`, so no neighbor is ever
relaxed), and `findPathBidirectional` returns a sequence whose first
element is the `''` sentinel stored as the start node's predecessor, not
`startId`.  All three violate the claim. -/
theorem C2_solvers_failing_input :
    findConnectingEdge storeAB "a" "b" = some edgeAB ∧
    findPathDijkstra storeAB "a" "b" cfg0 = none ∧
    findPathAStar (heuristic storeAB) storeAB "a" "b" cfg0 10 = some none ∧
    findPathBidirectional storeAB "a" "b" cfg0 = some ["", "a", "b"] := by
  decide

/-! ## C4: `findPath*(s, s)` and the single-node route -/

/-- C4: with node `a` present, `findPathDijkstra(a, a)` returns NONE (not
`[a]`), `findPathBidirectional(a, a)` returns `['', a]` (not `[a]`), the
A* loop never returns at all (same root cause as `C10_counterexample`),
and the route built from the path `[a]` has zero segments and zero totals
as claimed but reliability `0`, not the empty product `1` — the source's
`calculateReliability` starts with `if (segments.length === 0) return 0`. -/
theorem C4_self_call_failing_input :
    (getNode storeA "a").isSome = true ∧
    findPathDijkstra storeA "a" "a" cfg0 = none ∧
    findPathBidirectional storeA "a" "a" cfg0 = some ["", "a"] ∧
    (¬ astarTerminates (heuristic storeA) storeA "a" "a" cfg0) ∧
    (pathToRoute storeA ["a"] cfg0 "rid").map
        (fun r => (r.segments.length, r.totalDistance, r.totalTime,
          r.totalCost.total, r.totalCarbon, r.reliability)) =
      some (0, 0, 0, 0, 0, 0) := by
  refine ⟨by decide, by decide, by decide, ?_, by decide⟩
  rintro ⟨fuel, hsome⟩
  have hinit :
      findPathAStar (heuristic storeA) storeA "a" "a" cfg0 fuel =
        astarLoop (heuristic storeA) storeA "a" cfg0 fuel astarInitA := rfl
  rw [hinit, astarLoop_storeA_none] at hsome
  simp at hsome

/-! ## C3: the segment chain invariant of `pathToRoute` -/

theorem nodesWellKeyed_get {st : Store} (h : nodesWellKeyed st = true)
    {k : String} {n : NetworkNode} (hget : jsGet st.nodes k = some n) :
    n.id = k := by
  have hmem := jsGet_mem _ _ _ hget
  unfold nodesWellKeyed at h
  rw [List.all_eq_true] at h
  simpa using h _ hmem

/-- The segment list built over a node path whose every adjacent pair has
a connecting edge is chained, and its first segment starts at the head of
the path. -/
theorem buildSegments_chain (st : Store) (rid : String) :
    ∀ (path : List String) (i : Nat) (segs : List RouteSegment),
      nodesWellKeyed st = true →
      allPairsConnected st path = true →
      buildSegments st rid path i = some segs →
      segmentsChained segs = true ∧
      (∀ s, segs.head? = some s → path.head? = some s.fromNode.id) := by
  intro path
  induction path with
  | nil =>
    intro i segs _ _ hbuild
    simp only [buildSegments, Option.some.injEq] at hbuild
    subst hbuild
    exact ⟨rfl, by simp⟩
  | cons u t ih =>
    intro i segs hkeyed hconn hbuild
    cases t with
    | nil =>
      simp only [buildSegments, Option.some.injEq] at hbuild
      subst hbuild
      exact ⟨rfl, by simp⟩
    | cons v rest =>
      simp only [allPairsConnected, Bool.and_eq_true] at hconn
      obtain ⟨hedge, hconn'⟩ := hconn
      obtain ⟨e, hE⟩ := Option.isSome_iff_exists.mp hedge
      simp only [buildSegments, hE] at hbuild
      rcases hu : jsGet st.nodes u with _ | fn
      · rw [hu] at hbuild; cases hbuild
      · rcases hv : jsGet st.nodes v with _ | tn
        · rw [hu, hv] at hbuild; cases hbuild
        · rw [hu, hv] at hbuild
          rcases hrec : buildSegments st rid (v :: rest) (i + 1) with _ | segs'
          · rw [hrec] at hbuild; cases hbuild
          · rw [hrec] at hbuild
            have hbuild' : mkSegment rid i fn tn e :: segs' = segs := by
              simpa using hbuild
            obtain ⟨hchain', hhead'⟩ := ih (i + 1) segs' hkeyed hconn' hrec
            subst hbuild'
            constructor
            · cases segs' with
              | nil => rfl
              | cons s' t' =>
                have hfrom : s'.fromNode.id = v := by
                  have := hhead' s' rfl
                  simp only [List.head?_cons, Option.some.injEq] at this
                  exact this.symm
                simp only [segmentsChained, Bool.and_eq_true]
                refine ⟨?_, hchain'⟩
                have hto : (mkSegment rid i fn tn e).toNode.id = v :=
                  nodesWellKeyed_get hkeyed hv
                rw [hto, hfrom]
                simp
            · intro s hs
              simp only [List.head?_cons, Option.some.injEq] at hs
              subst hs
              have : (mkSegment rid i fn tn e).fromNode.id = u :=
                nodesWellKeyed_get hkeyed hu
              simp [this]

/-- C3 (amended): the chain invariant
`segments[i].to.id = segments[i+1].from.id` holds for every route built
by `pathToRoute` over a well-keyed store *when every adjacent pair of the
node path has a connecting edge*.  When a pair has no connecting edge the
pair is silently skipped and the chain can break across the gap
(`C3_chain_counterexample`). -/
theorem C3_route_chained (st : Store) (path : List String)
    (config : OptimizationConfig) (rid : String) (r : Route)
    (hkeyed : nodesWellKeyed st = true)
    (hconn : allPairsConnected st path = true)
    (hroute : pathToRoute st path config rid = some r) :
    segmentsChained r.segments = true := by
  unfold pathToRoute at hroute
  rcases hbuild : buildSegments st rid path 0 with _ | segs
  · rw [hbuild] at hroute; cases hroute
  · rw [hbuild] at hroute
    simp only [Option.some.injEq] at hroute
    have hsegs : r.segments = segs := by rw [← hroute]
    rw [hsegs]
    exact (buildSegments_chain st rid path 0 segs hkeyed hconn hbuild).1

/-- C3, counterexample to the claim as stated: on the store with edges
`a → b` and `c → d` but no `b → c` edge, the node path `[a, b, c, d]` has
a pair with no connecting edge; `pathToRoute` silently skips it and
produces the two segments `a → b` and `c → d`, whose junction violates
the chain (`"b" ≠ "c"`). -/
theorem C3_chain_counterexample :
    findConnectingEdge storeGap4 "b" "c" = none ∧
    (pathToRoute storeGap4 ["a", "b", "c", "d"] cfg0 "rid").map
        (fun r => r.segments.map fun s => (s.fromNode.id, s.toNode.id)) =
      some [("a", "b"), ("c", "d")] ∧
    (pathToRoute storeGap4 ["a", "b", "c", "d"] cfg0 "rid").map
        (fun r => segmentsChained r.segments) =
      some false := by
  decide

/-- C3, witness: a fully connected two-pair path is chained. -/
theorem C3_witness :
    nodesWellKeyed storeChain3 = true ∧
    allPairsConnected storeChain3 ["a", "b", "c"] = true ∧
    (pathToRoute storeChain3 ["a", "b", "c"] cfg0 "rid").map
        (fun r => segmentsChained r.segments) =
      some true := by
  refine ⟨by decide, by decide, ?_⟩
  rcases hr : pathToRoute storeChain3 ["a", "b", "c"] cfg0 "rid" with _ | r
  · exact absurd hr (by decide)
  · simpa using C3_route_chained storeChain3 ["a", "b", "c"] cfg0 "rid" r
      (by decide) (by decide) hr

/-! ## C8: the scalarized edge cost -/

/-- C8: `calculateEdgeCost` computes exactly
`w.cost·baseCost + w.time·baseTime + w.carbon·emissions·distance +
w.risk·(1 − reliability)·100`, and the value is non-negative whenever the
weights and the edge fields are non-negative and `reliability ∈ [0, 1]`. -/
theorem C8_edge_cost (e : NetworkEdge) (config : OptimizationConfig) :
    calculateEdgeCost e config =
      config.weights.cost * e.baseCost + config.weights.time * e.baseTime +
        config.weights.carbon * e.carbonEmissions * e.distance +
        config.weights.risk * (1 - e.reliability) * 100 ∧
    (0 ≤ config.weights.cost → 0 ≤ config.weights.time →
      0 ≤ config.weights.carbon → 0 ≤ config.weights.risk →
      0 ≤ e.baseCost → 0 ≤ e.baseTime → 0 ≤ e.distance →
      0 ≤ e.carbonEmissions → 0 ≤ e.reliability → e.reliability ≤ 1 →
      0 ≤ calculateEdgeCost e config) := by
  constructor
  · unfold calculateEdgeCost
    ring
  · intro hwc hwt hwk hwr hbc hbt hd hce _ hrel1
    unfold calculateEdgeCost
    have h1 : (0 : ℚ) ≤ e.baseCost * config.weights.cost :=
      mul_nonneg hbc hwc
    have h2 : (0 : ℚ) ≤ e.baseTime * config.weights.time :=
      mul_nonneg hbt hwt
    have h3 : (0 : ℚ) ≤ e.carbonEmissions * e.distance * config.weights.carbon :=
      mul_nonneg (mul_nonneg hce hd) hwk
    have h4 : (0 : ℚ) ≤ (1 - e.reliability) * 100 * config.weights.risk := by
      have : (0 : ℚ) ≤ 1 - e.reliability := by linarith
      have : (0 : ℚ) ≤ (1 - e.reliability) * 100 := by linarith
      exact mul_nonneg this hwr
    linarith

/-- C8, witness: the formula and non-negativity at the concrete edge
`edgeAB` under `cfg0`. -/
theorem C8_witness :
    calculateEdgeCost edgeAB cfg0 =
      cfg0.weights.cost * edgeAB.baseCost +
        cfg0.weights.time * edgeAB.baseTime +
        cfg0.weights.carbon * edgeAB.carbonEmissions * edgeAB.distance +
        cfg0.weights.risk * (1 - edgeAB.reliability) * 100 ∧
    0 ≤ calculateEdgeCost edgeAB cfg0 :=
  ⟨(C8_edge_cost edgeAB cfg0).1,
    (C8_edge_cost edgeAB cfg0).2 (by decide) (by decide) (by decide)
      (by decide) (by decide) (by decide) (by decide) (by decide)
      (by decide) (by decide)⟩

/-! ## C5: the constraint-violation fallback -/

/-- C5: when the first route fails constraint validation,
`findOptimalRoute` performs exactly one fallback: it returns the result
of `findAlternativeRoute`, which reruns Dijkstra under the relaxed weight
vector `{cost·0.8, time·1.2, carbon·0.9, risk·1.1, serviceLevel
unchanged}`, materialises the path, attaches the constraints and returns
it with no further validation; if the fallback Dijkstra finds no path the
result is NONE. -/
theorem C5_fallback (hfun : String → String → WithTop ℚ) (fuel : Nat)
    (st : Store) (startId goalId : String) (constraints : RouteConstraints)
    (config : OptimizationConfig) (now : String) (p : List String) (r : Route)
    (hdispatch :
      dispatchAlgorithm hfun fuel st startId goalId config = some (some p))
    (hroute : pathToRoute st p config ("route-" ++ now) = some r)
    (hinvalid :
      validateConstraints { r with constraints := constraints } constraints =
        false) :
    findOptimalRoute hfun fuel st startId goalId constraints config now =
      findAlternativeRoute st startId goalId constraints config now ∧
    findAlternativeRoute st startId goalId constraints config now =
      (match findPathDijkstra st startId goalId (relaxedConfig config) with
       | none => some none
       | some p' =>
         match pathToRoute st p' (relaxedConfig config) ("route-alt-" ++ now)
         with
         | none => none
         | some route => some (some { route with constraints := constraints })) ∧
    relaxedConfig config =
      { config with
        weights :=
          { cost := config.weights.cost * 0.8
            time := config.weights.time * 1.2
            carbon := config.weights.carbon * 0.9
            risk := config.weights.risk * 1.1
            serviceLevel := config.weights.serviceLevel } } := by
  refine ⟨?_, rfl, rfl⟩
  unfold findOptimalRoute
  rw [hdispatch]
  simp only [hroute, hinvalid, Bool.false_eq_true, if_false]

/-- C5, witness: a concrete run through the invalid-then-fallback path.
The bidirectional solver yields the path `['', a, b]`, the materialised
route violates the avoid-nodes constraint `{a}`, and the fallback
Dijkstra (which never finds a path, see `C2_solvers_failing_input`)
yields NONE. -/
theorem C5_witness :
    dispatchAlgorithm (heuristic storeAB) 10 storeAB "a" "b" cfgBidi =
      some (some ["", "a", "b"]) ∧
    findOptimalRoute (heuristic storeAB) 10 storeAB "a" "b"
        avoidAConstraints cfgBidi "T" =
      findAlternativeRoute storeAB "a" "b" avoidAConstraints cfgBidi "T" ∧
    findAlternativeRoute storeAB "a" "b" avoidAConstraints cfgBidi "T" =
      some none := by
  refine ⟨by decide, ?_, by decide⟩
  rcases hr : pathToRoute storeAB ["", "a", "b"] cfgBidi "route-T" with _ | r
  · exact absurd hr (by decide)
  · have hval :
        (pathToRoute storeAB ["", "a", "b"] cfgBidi "route-T").map
          (fun r =>
            validateConstraints { r with constraints := avoidAConstraints }
              avoidAConstraints) = some false := by decide
    rw [hr] at hval
    have hval' :
        validateConstraints { r with constraints := avoidAConstraints }
          avoidAConstraints = false := by simpa using hval
    exact (C5_fallback (heuristic storeAB) 10 storeAB "a" "b"
      avoidAConstraints cfgBidi "T" ["", "a", "b"] r (by decide) hr hval').1

/-! ## C6: the Pareto dominance filter -/

/-- C6 (amended): a candidate is marked `isOptimal` iff no candidate
*with a different id* dominates it — the source's inner loop skips every
candidate whose id equals the tested route's id, so two candidates
sharing an id never dominate each other for the marking
(`C6_counterexample`). -/
theorem C6_pareto_iff (routes : List Route) (pt : ParetoPoint)
    (hmem : pt ∈ findParetoOptimal routes) :
    pt.isOptimal = true ↔
      ∀ r' ∈ routes, r'.id ≠ pt.route.id →
        dominates (objectivesOf r') (objectivesOf pt.route) = false := by
  unfold findParetoOptimal at hmem
  rw [List.mem_map] at hmem
  obtain ⟨r, hrmem, rfl⟩ := hmem
  have key :
      (routes.any fun o =>
        (o.id != r.id) && dominates (objectivesOf o) (objectivesOf r)) =
          false ↔
        ∀ r' ∈ routes, r'.id ≠ r.id →
          dominates (objectivesOf r') (objectivesOf r) = false := by
    rw [List.any_eq_false]
    constructor
    · intro h r' hr' hne
      have hx := h r' hr'
      simp only [Bool.not_eq_true] at hx
      cases hdom : dominates (objectivesOf r') (objectivesOf r) with
      | false => rfl
      | true =>
        rw [hdom, Bool.and_true] at hx
        have : r'.id = r.id := by simpa using hx
        exact absurd this hne
    · intro h r' hr'
      by_cases hid : r'.id = r.id
      · simp [hid]
      · simp [h r' hr' hid]
  simp only [Bool.not_eq_true']
  exact key

/-- C6, counterexample to the claim as stated: two candidates share the
id `r`; the second dominates the first, yet both are marked
`isOptimal = true`, because the dominance scan skips candidates with an
equal id — so a route marked optimal *is* dominated by another route of
the same frontier. -/
theorem C6_counterexample :
    (findParetoOptimal [routeRone, routeRzero]).map
        (fun pt => (pt.route.id, pt.isOptimal)) =
      [("r", true), ("r", true)] ∧
    routeRzero ∈ [routeRone, routeRzero] ∧
    routeRzero ≠ routeRone ∧
    dominates (objectivesOf routeRzero) (objectivesOf routeRone) = true := by
  decide

/-- C6, witness: with distinct ids the marking is exactly
non-domination; `routeX` is dominated by `routeY` and marked
non-optimal. -/
theorem C6_witness :
    (⟨routeX, objectivesOf routeX, false⟩ : ParetoPoint) ∈
      findParetoOptimal [routeX, routeY] ∧
    ((false = true) ↔
      ∀ r' ∈ [routeX, routeY], r'.id ≠ routeX.id →
        dominates (objectivesOf r') (objectivesOf routeX) = false) :=
  ⟨by decide,
    C6_pareto_iff [routeX, routeY] ⟨routeX, objectivesOf routeX, false⟩
      (by decide)⟩

/-! ## C7: `addEdge` / `removeEdge` round trip -/

/-- C7 (amended): `addEdge(e)` followed by `removeEdge(e.id)` restores
the store exactly — including adjacency order — provided `e.id` is fresh
(not in the edge index and not a dangling id in the source's adjacency
list) and the source's adjacency slot already exists.  If `e.id` already
names a stored edge, the pair *deletes* that edge instead
(`C7_counterexample`); if the slot is missing, an empty slot is left
behind. -/
theorem C7_add_remove_roundtrip (st : Store) (e : NetworkEdge)
    (adjList : List String)
    (hfresh : jsGet st.edges e.id = none)
    (hslot : jsGet st.adj e.source = some adjList)
    (hnotin : e.id ∉ adjList) :
    removeEdge (addEdge st e) e.id = st := by
  unfold addEdge removeEdge
  simp only [hslot, Option.getD_some, jsGet_jsSet_self]
  rw [jsSet_of_jsGet_none st.edges e.id e hfresh,
    jsDelete_append_fresh st.edges e.id e hfresh]
  rw [List.erase_append_right _ hnotin]
  simp only [List.erase_cons_head, List.append_nil]
  rw [jsSet_jsSet, jsSet_of_jsGet_some st.adj e.source adjList hslot]

/-- C7, counterexample to the claim as stated: if an edge with the same
id is already stored, `addEdge` overwrites it and `removeEdge` then
deletes the entry outright — the original edge record is lost, so the
edge index does not return to its prior state. -/
theorem C7_counterexample :
    jsGet storeX.edges "x" = some edgeX0 ∧
    edgeX1.id = "x" ∧
    jsGet (removeEdge (addEdge storeX edgeX1) "x").edges "x" = none := by
  decide

/-- C7, witness: adding and removing the fresh edge `e9` on `storeAB`
restores the store exactly. -/
theorem C7_witness :
    jsGet storeAB.edges "e9" = none ∧
    jsGet storeAB.adj "a" = some ["eAB"] ∧
    ("e9" ∉ ["eAB"]) ∧
    removeEdge (addEdge storeAB edgeAB9) "e9" = storeAB :=
  ⟨by decide, by decide, by decide,
    C7_add_remove_roundtrip storeAB edgeAB9 ["eAB"] (by decide) (by decide)
      (by decide)⟩

/-! ## C1: the disruption re-route protocol -/

/-- The SNAPSHOT/REMOVE phase maintains `RemovalInv`. -/
theorem removeDisrupted_inv (store : Store) :
    ∀ (disrupted : List String) (removed : List (String × NetworkEdge))
      (cur : Store),
      RemovalInv store removed cur →
      RemovalInv store (removeDisrupted disrupted (removed, cur)).1
        (removeDisrupted disrupted (removed, cur)).2 := by
  intro disrupted
  induction disrupted with
  | nil => intro removed cur hinv; exact hinv
  | cons d rest ih =>
    intro removed cur hinv
    obtain ⟨hnodup, hids, hsnap, huntouched, hcurnodup, hcurids⟩ := hinv
    show RemovalInv store
      (removeDisrupted (d :: rest) (removed, cur)).1
      (removeDisrupted (d :: rest) (removed, cur)).2
    have hunfold :
        removeDisrupted (d :: rest) (removed, cur) =
          removeDisrupted rest
            (match getEdge cur d with
             | some e => (jsSet removed d e, removeEdge cur d)
             | none => (removed, cur)) := rfl
    rw [hunfold]
    rcases hget : getEdge cur d with _ | e
    · exact ih removed cur
        ⟨hnodup, hids, hsnap, huntouched, hcurnodup, hcurids⟩
    · apply ih
      unfold getEdge at hget
      have hdid : e.id = d := hcurids _ (jsGet_mem _ _ _ hget)
      have hrem_none : jsGet removed d = none := by
        rcases hrd : jsGet removed d with _ | e'
        · rfl
        · exact absurd hget (by rw [(hsnap d e' hrd).2]; simp)
      have happend : jsSet removed d e = removed ++ [(d, e)] :=
        jsSet_of_jsGet_none removed d e hrem_none
      have hcur' : (removeEdge cur d).edges = jsDelete cur.edges d := by
        unfold removeEdge
        rw [hget]
      refine ⟨?_, ?_, ?_, ?_, ?_, ?_⟩
      · rw [happend, List.map_append, List.nodup_append]
        refine ⟨hnodup, by simp, ?_⟩
        intro x hx hx2
        have hxd : x = d := by simpa using hx2
        rw [hxd] at hx
        exact absurd hx (not_mem_of_jsGet_eq_none removed d hrem_none)
      · rw [happend]
        intro p hp
        rcases List.mem_append.mp hp with hl | hr
        · exact hids p hl
        · simp only [List.mem_singleton] at hr
          subst hr
          exact hdid
      · intro q e' hq
        rw [happend, jsGet_append] at hq
        rcases hqr : jsGet removed q with _ | eSnap
        · rw [hqr] at hq
          simp only [jsGet] at hq
          rcases hqd : decide (d = q) with _ | _
          · simp only [of_decide_eq_false hqd] at hq
            cases hq
          · have hdq : d = q := of_decide_eq_true hqd
            subst hdq
            simp only [if_pos rfl] at hq
            obtain rfl : e = e' := by injection hq
            constructor
            · rw [← huntouched d hqr]
              exact hget
            · rw [hcur']
              exact jsGet_jsDelete_self_of_nodup cur.edges d hcurnodup
        · rw [hqr] at hq
          obtain rfl : eSnap = e' := by injection hq
          obtain ⟨hstore, hcurq⟩ := hsnap q eSnap hqr
          have hqd : q ≠ d := by
            intro hqd
            subst hqd
            rw [hrem_none] at hqr
            cases hqr
          refine ⟨hstore, ?_⟩
          rw [hcur', jsGet_jsDelete_ne cur.edges d q hqd]
          exact hcurq
      · intro q hq
        rw [happend, jsGet_append] at hq
        rcases hqr : jsGet removed q with _ | eSnap
        · rw [hqr] at hq
          simp only [jsGet] at hq
          have hqd : ¬ (d = q) := by
            intro hdq
            subst hdq
            simp at hq
          rw [hcur', jsGet_jsDelete_ne cur.edges d q (fun hh => hqd hh.symm)]
          exact huntouched q hqr
        · rw [hqr] at hq
          cases hq
      · rw [hcur']
        exact (List.Sublist.map Prod.fst (jsDelete_sublist cur.edges d)).nodup
          hcurnodup
      · rw [hcur']
        intro p hp
        exact hcurids p (List.Sublist.mem hp (jsDelete_sublist cur.edges d))

/-- The RESTORE loop re-adds exactly the snapshotted records: after it,
a key reads as its snapshot if snapshotted, and as in the pre-restore
store otherwise. -/
theorem restore_edges_lookup :
    ∀ (removed : List (String × NetworkEdge)) (cur : Store),
      (removed.map Prod.fst).Nodup →
      (∀ p ∈ removed, p.2.id = p.1) →
      ∀ q,
        jsGet (removed.foldl (fun s p => addEdge s p.2) cur).edges q =
          match jsGet removed q with
          | some e => some e
          | none => jsGet cur.edges q := by
  intro removed
  induction removed with
  | nil => intro cur _ _ q; rfl
  | cons p rest ih =>
    intro cur hnodup hids q
    obtain ⟨k, e⟩ := p
    have hke : e.id = k := by simpa using hids (k, e) (List.mem_cons_self _ _)
    simp only [List.map_cons, List.nodup_cons] at hnodup
    simp only [List.foldl_cons]
    rw [ih (addEdge cur e) hnodup.2
      (fun p hp => hids p (List.mem_cons_of_mem _ hp)) q]
    by_cases hq : q = k
    · subst hq
      rw [jsGet_eq_none_of_not_mem rest q hnodup.1]
      show jsGet (addEdge cur e).edges q = _
      unfold addEdge
      simp only
      rw [hke, jsGet_jsSet_self]
      simp [jsGet]
    · have hcons : jsGet ((k, e) :: rest) q = jsGet rest q := by
        have hk : ¬ (k = q) := fun hh => hq hh.symm
        simp [jsGet, hk]
      rw [hcons]
      rcases hrest : jsGet rest q with _ | e'
      · show jsGet (addEdge cur e).edges q = jsGet cur.edges q
        unfold addEdge
        simp only
        rw [hke, jsGet_jsSet_ne cur.edges k q e hq]
      · rfl

/-- C1 (amended): whenever `reoptimizeRoute` *returns* (the solve comes
back with a route or with NONE), the edge index afterwards reads exactly
as before the call, for every key: each disrupted edge that was present
was snapshotted, removed, and re-added.  A call that throws before the
RESTORE loop — computing the destination on a route with no segments —
leaves the removed edges absent (`C1_counterexample`), as there is no
`try`/`finally` in the source. -/
theorem C1_reoptimize_restores (hfun : String → String → WithTop ℚ)
    (fuel : Nat) (st : Store) (currentRoute : Route)
    (currentPosition : String) (disruptedEdges : List String) (now : String)
    (res : Option Route) (st' : Store)
    (hkeyed : edgesWellKeyed st)
    (hcall :
      reoptimizeRoute hfun fuel st currentRoute currentPosition
        disruptedEdges now = (some res, st')) :
    ∀ q, jsGet st'.edges q = jsGet st.edges q := by
  intro q
  have hinv0 : RemovalInv st [] st := by
    refine ⟨by simp, by simp, ?_, fun q _ => rfl, hkeyed.1, ?_⟩
    · intro q e hq
      simp [jsGet] at hq
    · intro p hp
      exact hkeyed.2 p hp
  obtain ⟨hnodup, hids, hsnap, huntouched, -, -⟩ :=
    removeDisrupted_inv st disruptedEdges [] st hinv0
  unfold reoptimizeRoute at hcall
  simp only [] at hcall
  rcases hlast : currentRoute.segments.getLast? with _ | lastSeg
  · rw [hlast] at hcall
    cases hcall
  · rw [hlast] at hcall
    simp only [] at hcall
    rcases hsolve :
        findOptimalRoute hfun fuel (removeDisrupted disruptedEdges ([], st)).2
          currentPosition lastSeg.toNode.id currentRoute.constraints
          reoptimizeConfig now with _ | result
    · rw [hsolve] at hcall
      cases hcall
    · rw [hsolve] at hcall
      simp only [] at hcall
      have hst' :
          st' =
            (removeDisrupted disruptedEdges ([], st)).1.foldl
              (fun s p => addEdge s p.2)
              (removeDisrupted disruptedEdges ([], st)).2 := by
        have hsnd := congrArg Prod.snd hcall
        simpa using hsnd.symm
      rw [hst',
        restore_edges_lookup (removeDisrupted disruptedEdges ([], st)).1
          (removeDisrupted disruptedEdges ([], st)).2 hnodup hids q]
      rcases hq : jsGet (removeDisrupted disruptedEdges ([], st)).1 q
        with _ | e
      · exact huntouched q hq
      · exact (hsnap q e hq).1.symm

/-- C1, counterexample to the claim as stated: the route has no segments,
so `currentRoute.segments[length − 1].to.id` throws after the REMOVE step
and before RESTORE; the call does not complete normally and the disrupted
edge `eAB`, present before the call, is gone afterwards. -/
theorem C1_counterexample :
    jsGet storeAB.edges "eAB" = some edgeAB ∧
    routeNoSegs.segments = [] ∧
    (reoptimizeRoute (heuristic storeAB) 10 storeAB routeNoSegs "a" ["eAB"]
        "T").1 = none ∧
    jsGet (reoptimizeRoute (heuristic storeAB) 10 storeAB routeNoSegs "a"
        ["eAB"] "T").2.edges "eAB" = none := by
  decide

/-- C1, witness: a completing call (the solve returns NONE) restores the
disrupted edge. -/
theorem C1_witness :
    edgesWellKeyed storeAB ∧
    reoptimizeRoute (heuristic storeAB) 10 storeAB routeToB "a" ["eAB"] "T" =
      (some none,
        (reoptimizeRoute (heuristic storeAB) 10 storeAB routeToB "a" ["eAB"]
          "T").2) ∧
    jsGet (reoptimizeRoute (heuristic storeAB) 10 storeAB routeToB "a"
        ["eAB"] "T").2.edges "eAB" = jsGet storeAB.edges "eAB" :=
  ⟨by decide, by decide,
    C1_reoptimize_restores (heuristic storeAB) 10 storeAB routeToB "a"
      ["eAB"] "T" none _ (by decide) (by decide) "eAB"⟩

/-! ## C9: the Pareto weight grid -/

/-- The candidate collection of `generateParetoFrontier` produces at most
one route per weight vector. -/
theorem collectCandidates_length (hfun : String → String → WithTop ℚ)
    (fuel : Nat) (st : Store) (startId goalId : String)
    (constraints : RouteConstraints) (objectives : List String)
    (now : String) :
    ∀ (ws : List Weights) (cands : List Route),
      collectCandidates hfun fuel st startId goalId constraints objectives
        now ws = some cands →
      cands.length ≤ ws.length := by
  intro ws
  induction ws with
  | nil =>
    intro cands h
    simp only [collectCandidates, Option.some.injEq] at h
    subst h
    simp
  | cons w rest ih =>
    intro cands h
    simp only [collectCandidates] at h
    rcases hopt :
        findOptimalRoute hfun fuel st startId goalId constraints
          { objectives := objectives, weights := w, algorithm := "hybrid"
            considerTraffic := true, considerWeather := true
            stochastic := false, confidenceLevel := none } now
      with _ | r
    · rw [hopt] at h
      cases h
    · rw [hopt] at h
      cases r with
      | none =>
        have := ih cands h
        simpa using Nat.le_succ_of_le this
      | some route =>
        rcases hrec :
            collectCandidates hfun fuel st startId goalId constraints
              objectives now rest with _ | rest'
        · rw [hrec] at h
          cases h
        · rw [hrec] at h
          have hcands : route :: rest' = cands := by simpa using h
          subst hcands
          simpa using Nat.succ_le_succ (ih rest' hrec)

/-- C9: `generateWeightCombinations` produces exactly the 56 weight
vectors of the claim — one for each triple `(i, j, k)` of non-negative
integers with `i + j + k ≤ 5`, with `cost = i/5`, `time = j/5`,
`carbon = k/5` and `risk = serviceLevel = (1 − cost − time − carbon)/2`,
each exactly once — and the Pareto enumeration solves at most once per
vector, so a frontier never holds more than 56 candidates. -/
theorem C9_weight_grid (objectives : List String) :
    generateWeightCombinations objectives = paretoWeightGrid ∧
    paretoWeightGrid.length = 56 ∧
    paretoWeightGrid.Nodup ∧
    (∀ (hfun : String → String → WithTop ℚ) (fuel : Nat) (st : Store)
      (startId goalId : String) (constraints : RouteConstraints)
      (now : String) (cands : List Route),
      collectCandidates hfun fuel st startId goalId constraints objectives
        now (generateWeightCombinations objectives) = some cands →
      cands.length ≤ 56) := by
  have hsame :
      generateWeightCombinations objectives = generateWeightCombinations [] :=
    rfl
  have hgrid : generateWeightCombinations ([] : List String) =
      paretoWeightGrid := by decide
  refine ⟨hsame.trans hgrid, by decide, by decide, ?_⟩
  intro hfun fuel st startId goalId constraints now cands hcoll
  have hlen :=
    collectCandidates_length hfun fuel st startId goalId constraints
      objectives now (generateWeightCombinations objectives) cands hcoll
  have h56 : (generateWeightCombinations objectives).length = 56 := by
    rw [hsame.trans hgrid]
    decide
  omega

/-- C9, witness: a concrete Pareto enumeration (two isolated nodes: every
solve returns "no route") runs once per vector and collects no more than
56 candidates. -/
theorem C9_witness :
    collectCandidates (heuristic storeTwoIsolated) 3 storeTwoIsolated "a"
        "b" RouteConstraints.empty [] "T"
        (generateWeightCombinations []) = some [] ∧
    ([] : List Route).length ≤ 56 :=
  ⟨by decide,
    (C9_weight_grid []).2.2.2 (heuristic storeTwoIsolated) 3
      storeTwoIsolated "a" "b" RouteConstraints.empty "T" [] (by decide)⟩

end RouteOpt
